import Mathlib

/-!
Verification of the Stavanger-Parkering repository: a shallow embedding of
the ETL validation/transform pipeline (src/etl_pipeline.py) and of the
dashboard/job reconciliation deployer (src/scripts/deploy_to_databricks.py),
with theorems settling the spec's claims.

Data frames are modelled as lists of records; the Spark builtins used by the
pipeline (dropDuplicates, filter/isNull/count, concat_ws, to_timestamp) are
modelled by their documented semantics. HTTP interaction in the deployer is
modelled by an environment describing the remote responses, and each deploy
function returns the trace of remote calls it issues together with the log
lines it prints.
-/

namespace StavangerParkering

/-! Part 1: the ETL pipeline (src/etl_pipeline.py). A data frame row has the
four columns used by the pipeline; each column is nullable. -/

structure Record where
  Sted : Option String
  Dato : Option String
  Klokkeslett : Option String
  Antall_ledige_plasser : Option Int
deriving Repr, DecidableEq

/-- The deduplication key of a row: the (Sted, Dato, Klokkeslett) columns,
the subset passed to dropDuplicates in sjekk_duplikater. -/
def recordKey (r : Record) : Option String × Option String × Option String :=
  (r.Sted, r.Dato, r.Klokkeslett)

/-- Models DataFrame.dropDuplicates on the key columns: keep the first row
for each distinct key, drop later rows with an already-seen key. -/
def dropDupAux (seen : List (Option String × Option String × Option String)) :
    List Record → List Record
  | [] => []
  | r :: rs =>
    if recordKey r ∈ seen then dropDupAux seen rs
    else r :: dropDupAux (recordKey r :: seen) rs

/-- sjekk_duplikater: adds a helper unique_id column, drops duplicates on
(Sted, Dato, Klokkeslett) and drops the helper column again; the net effect
on the rows is deduplication by that key. -/
def sjekk_duplikater (df : List Record) : List Record :=
  dropDupAux [] df

/-- Whether the named column is null in the given row (col(name).isNull()). -/
def colIsNull (c : String) (r : Record) : Bool :=
  match c with
  | "Sted" => r.Sted.isNone
  | "Dato" => r.Dato.isNone
  | "Klokkeslett" => r.Klokkeslett.isNone
  | "Antall_ledige_plasser" => r.Antall_ledige_plasser.isNone
  | _ => false

/-- The column list valider_manglende iterates over, in source order. -/
def requiredCols : List String :=
  ["Sted", "Dato", "Klokkeslett", "Antall_ledige_plasser"]

/-- The loop body of valider_manglende: for each column name in order, count
the rows where that column is null and raise on the first positive count. -/
def validerAux (df : List Record) : List String → Except String Unit
  | [] => Except.ok ()
  | c :: cs =>
    if (df.filter (colIsNull c)).length > 0 then
      Except.error ("Manglende verdier i " ++ c)
    else validerAux df cs

/-- valider_manglende: raises ValueError naming the first column (in the
fixed order Sted, Dato, Klokkeslett, Antall_ledige_plasser) that is null in
some row; returns nothing otherwise. The raise is modelled as Except.error
carrying the message. -/
def valider_manglende (df : List Record) : Except String Unit :=
  validerAux df requiredCols

/-- A row with all four required columns present. -/
def recordComplete (r : Record) : Bool :=
  r.Sted.isSome && r.Dato.isSome && r.Klokkeslett.isSome &&
    r.Antall_ledige_plasser.isSome

/-- A parsed timestamp value, the result of a successful to_timestamp. -/
structure Timestamp where
  day : Nat
  month : Nat
  year : Nat
  hour : Nat
  minute : Nat
deriving Repr, DecidableEq

/-- Numeric value of a decimal digit character. -/
def digitVal (c : Char) : Nat := c.toNat - 48

/-- Models Spark's to_timestamp with the fixed pattern dd.MM.yyyy HH:mm:
the string must be exactly two digits, a dot, two digits, a dot, four
digits, a space, two digits, a colon and two digits, with the fields in
range; any other string yields null (none) rather than an error. -/
def parseTimestamp (s : String) : Option Timestamp :=
  match s.toList with
  | [d1, d2, '.', m1, m2, '.', y1, y2, y3, y4, ' ', h1, h2, ':', n1, n2] =>
    if ([d1, d2, m1, m2, y1, y2, y3, y4, h1, h2, n1, n2].all Char.isDigit) then
      let day := digitVal d1 * 10 + digitVal d2
      let month := digitVal m1 * 10 + digitVal m2
      let year := digitVal y1 * 1000 + digitVal y2 * 100 + digitVal y3 * 10 + digitVal y4
      let hour := digitVal h1 * 10 + digitVal h2
      let minute := digitVal n1 * 10 + digitVal n2
      if 1 ≤ day && day ≤ 31 && 1 ≤ month && month ≤ 12 && hour ≤ 23 && minute ≤ 59 then
        some ⟨day, month, year, hour, minute⟩
      else none
    else none
  | _ => none

/-- Joins a list of strings with a separator. -/
def sepJoin (sep : String) : List String → String
  | [] => ""
  | [s] => s
  | s :: rest => s ++ sep ++ sepJoin sep rest

/-- Models Spark's concat_ws: null columns are skipped and the remaining
strings are joined with the separator. -/
def concat_ws (sep : String) (cols : List (Option String)) : String :=
  sepJoin sep (cols.filterMap id)

/-- The row shape produced by konverter_timestamp: the Dato and Klokkeslett
columns are dropped and a single (nullable) timestamp column is added. -/
structure TsRecord where
  Sted : Option String
  Antall_ledige_plasser : Option Int
  timestamp : Option Timestamp
deriving Repr, DecidableEq

/-- konverter_timestamp: adds a timestamp column computed by to_timestamp on
concat_ws(" ", Dato, Klokkeslett) and drops the Dato and Klokkeslett
columns. -/
def konverter_timestamp (r : Record) : TsRecord :=
  { Sted := r.Sted
    Antall_ledige_plasser := r.Antall_ledige_plasser
    timestamp := parseTimestamp (concat_ws " " [r.Dato, r.Klokkeslett]) }

/-! Supporting lemmas for the deduplicator. -/

theorem dropDupAux_length (seen : List (Option String × Option String × Option String))
    (xs : List Record) : (dropDupAux seen xs).length ≤ xs.length := by
  induction xs generalizing seen with
  | nil => simp [dropDupAux]
  | cons r rs ih =>
    by_cases h : recordKey r ∈ seen
    · simp only [dropDupAux, if_pos h]
      exact Nat.le_succ_of_le (ih seen)
    · simp only [dropDupAux, if_neg h, List.length_cons]
      exact Nat.succ_le_succ (ih (recordKey r :: seen))

theorem dropDupAux_key_not_seen (seen : List (Option String × Option String × Option String))
    (xs : List Record) :
    ∀ r ∈ dropDupAux seen xs, recordKey r ∉ seen := by
  induction xs generalizing seen with
  | nil => simp [dropDupAux]
  | cons r rs ih =>
    by_cases h : recordKey r ∈ seen
    · simp only [dropDupAux, if_pos h]
      exact ih seen
    · simp only [dropDupAux, if_neg h]
      intro a ha
      rcases List.mem_cons.mp ha with ha | ha
      · subst ha; exact h
      · intro hmem
        exact (ih (recordKey r :: seen) a ha) (List.mem_cons_of_mem _ hmem)

theorem dropDupAux_pairwise (seen : List (Option String × Option String × Option String))
    (xs : List Record) :
    (dropDupAux seen xs).Pairwise (fun a b => recordKey a ≠ recordKey b) := by
  induction xs generalizing seen with
  | nil => simp [dropDupAux]
  | cons r rs ih =>
    by_cases h : recordKey r ∈ seen
    · simp only [dropDupAux, if_pos h]
      exact ih seen
    · simp only [dropDupAux, if_neg h]
      refine List.Pairwise.cons ?_ (ih (recordKey r :: seen))
      intro b hb heq
      exact (dropDupAux_key_not_seen (recordKey r :: seen) rs b hb)
        (heq ▸ List.mem_cons_self _ _)

theorem dropDupAux_idem (seen : List (Option String × Option String × Option String))
    (xs : List Record) :
    dropDupAux seen (dropDupAux seen xs) = dropDupAux seen xs := by
  induction xs generalizing seen with
  | nil => simp [dropDupAux]
  | cons r rs ih =>
    by_cases h : recordKey r ∈ seen
    · simp only [dropDupAux, if_pos h]
      exact ih seen
    · simp only [dropDupAux, if_neg h]
      rw [ih (recordKey r :: seen)]

/-- C4: deduplication is idempotent, never grows the input, and its output
has pairwise-distinct (Sted, Dato, Klokkeslett) keys. -/
theorem C4_dedup_idempotent_bounded_distinct (xs : List Record) :
    sjekk_duplikater (sjekk_duplikater xs) = sjekk_duplikater xs ∧
    (sjekk_duplikater xs).length ≤ xs.length ∧
    (sjekk_duplikater xs).Pairwise (fun a b => recordKey a ≠ recordKey b) :=
  ⟨dropDupAux_idem [] xs, dropDupAux_length [] xs, dropDupAux_pairwise [] xs⟩

/-! Supporting lemmas for the completeness validator. -/

theorem colIsNull_Sted (r : Record) : colIsNull "Sted" r = r.Sted.isNone := rfl

theorem colIsNull_Dato (r : Record) : colIsNull "Dato" r = r.Dato.isNone := rfl

theorem colIsNull_Klokkeslett (r : Record) :
    colIsNull "Klokkeslett" r = r.Klokkeslett.isNone := rfl

theorem colIsNull_Antall (r : Record) :
    colIsNull "Antall_ledige_plasser" r = r.Antall_ledige_plasser.isNone := rfl

theorem valider_unfold (df : List Record) :
    valider_manglende df =
      if (df.filter (colIsNull "Sted")).length > 0 then
        Except.error "Manglende verdier i Sted"
      else if (df.filter (colIsNull "Dato")).length > 0 then
        Except.error "Manglende verdier i Dato"
      else if (df.filter (colIsNull "Klokkeslett")).length > 0 then
        Except.error "Manglende verdier i Klokkeslett"
      else if (df.filter (colIsNull "Antall_ledige_plasser")).length > 0 then
        Except.error "Manglende verdier i Antall_ledige_plasser"
      else Except.ok () := rfl

theorem filter_len_pos_iff (df : List Record) (c : String) :
    ((df.filter (colIsNull c)).length > 0) ↔ ∃ r ∈ df, colIsNull c r = true := by
  constructor
  · intro h
    rcases List.exists_mem_of_length_pos h with ⟨r, hr⟩
    rcases List.mem_filter.mp hr with ⟨h1, h2⟩
    exact ⟨r, h1, h2⟩
  · rintro ⟨r, hr, hc⟩
    exact List.length_pos.mpr (fun hnil =>
      (List.filter_eq_nil_iff.mp hnil r hr) (by simp [hc]))

theorem no_null_of_not_pos (df : List Record) (c : String)
    (h : ¬((df.filter (colIsNull c)).length > 0)) :
    ∀ r ∈ df, colIsNull c r = false := by
  intro r hr
  cases hcr : colIsNull c r
  · rfl
  · exact absurd ((filter_len_pos_iff df c).mpr ⟨r, hr, hcr⟩) h

theorem complete_iff_cols (r : Record) :
    recordComplete r = true ↔
      (colIsNull "Sted" r = false ∧ colIsNull "Dato" r = false ∧
       colIsNull "Klokkeslett" r = false ∧
       colIsNull "Antall_ledige_plasser" r = false) := by
  rw [colIsNull_Sted, colIsNull_Dato, colIsNull_Klokkeslett, colIsNull_Antall]
  simp only [recordComplete, Bool.and_eq_true]
  cases r.Sted <;> cases r.Dato <;> cases r.Klokkeslett <;>
    cases r.Antall_ledige_plasser <;> simp

/-- C5: the completeness validator succeeds exactly when every record has all
of Sted, Dato, Klokkeslett and Antall_ledige_plasser present; when it fails,
the error names the first column in source order that is null in some
record. The model is a pure function, so success has no side effects. -/
theorem C5_valider_manglende_gate (df : List Record) :
    (valider_manglende df = Except.ok () ↔ ∀ r ∈ df, recordComplete r = true) ∧
    (∀ s, valider_manglende df = Except.error s →
      ∃ c ∈ requiredCols, s = "Manglende verdier i " ++ c ∧
        (∃ r ∈ df, colIsNull c r = true) ∧
        ∀ c' ∈ requiredCols.takeWhile (fun x => x ≠ c),
          ∀ r ∈ df, colIsNull c' r = false) := by
  rw [valider_unfold]
  constructor
  · constructor
    · intro hok
      split_ifs at hok with h1 h2 h3 h4
      intro r hr
      rw [complete_iff_cols]
      exact ⟨no_null_of_not_pos df _ h1 r hr, no_null_of_not_pos df _ h2 r hr,
        no_null_of_not_pos df _ h3 r hr, no_null_of_not_pos df _ h4 r hr⟩
    · intro hall
      have hno : ∀ c, (¬∃ r ∈ df, colIsNull c r = true) → ¬((df.filter (colIsNull c)).length > 0) :=
        fun c h hp => h ((filter_len_pos_iff df c).mp hp)
      have h1 : ¬((df.filter (colIsNull "Sted")).length > 0) := by
        refine hno _ ?_
        rintro ⟨r, hr, hc⟩
        have := (complete_iff_cols r).mp (hall r hr)
        simp [this.1] at hc
      have h2 : ¬((df.filter (colIsNull "Dato")).length > 0) := by
        refine hno _ ?_
        rintro ⟨r, hr, hc⟩
        have := (complete_iff_cols r).mp (hall r hr)
        simp [this.2.1] at hc
      have h3 : ¬((df.filter (colIsNull "Klokkeslett")).length > 0) := by
        refine hno _ ?_
        rintro ⟨r, hr, hc⟩
        have := (complete_iff_cols r).mp (hall r hr)
        simp [this.2.2.1] at hc
      have h4 : ¬((df.filter (colIsNull "Antall_ledige_plasser")).length > 0) := by
        refine hno _ ?_
        rintro ⟨r, hr, hc⟩
        have := (complete_iff_cols r).mp (hall r hr)
        simp [this.2.2.2] at hc
      rw [if_neg h1, if_neg h2, if_neg h3, if_neg h4]
  · intro s hs
    split_ifs at hs with h1 h2 h3 h4
    · refine ⟨"Sted", by simp [requiredCols], ?_, (filter_len_pos_iff df _).mp h1, ?_⟩
      · exact ((Except.error.inj hs).symm).trans (by decide)
      · have ht : requiredCols.takeWhile (fun x => x ≠ "Sted") = [] := by decide
        rw [ht]
        intro c' hc'
        exact absurd hc' (List.not_mem_nil c')
    · refine ⟨"Dato", by simp [requiredCols], ?_, (filter_len_pos_iff df _).mp h2, ?_⟩
      · exact ((Except.error.inj hs).symm).trans (by decide)
      · have ht : requiredCols.takeWhile (fun x => x ≠ "Dato") = ["Sted"] := by decide
        rw [ht]
        intro c' hc'
        rcases List.mem_singleton.mp hc' with rfl
        exact no_null_of_not_pos df _ h1
    · refine ⟨"Klokkeslett", by simp [requiredCols], ?_, (filter_len_pos_iff df _).mp h3, ?_⟩
      · exact ((Except.error.inj hs).symm).trans (by decide)
      · have ht : requiredCols.takeWhile (fun x => x ≠ "Klokkeslett") = ["Sted", "Dato"] := by
          decide
        rw [ht]
        intro c' hc'
        rcases List.mem_cons.mp hc' with rfl | hc'
        · exact no_null_of_not_pos df _ h1
        · rcases List.mem_singleton.mp hc' with rfl
          exact no_null_of_not_pos df _ h2
    · refine ⟨"Antall_ledige_plasser", by simp [requiredCols], ?_,
        (filter_len_pos_iff df _).mp h4, ?_⟩
      · exact ((Except.error.inj hs).symm).trans (by decide)
      · have ht : requiredCols.takeWhile (fun x => x ≠ "Antall_ledige_plasser")
            = ["Sted", "Dato", "Klokkeslett"] := by decide
        rw [ht]
        intro c' hc'
        rcases List.mem_cons.mp hc' with rfl | hc'
        · exact no_null_of_not_pos df _ h1
        · rcases List.mem_cons.mp hc' with rfl | hc'
          · exact no_null_of_not_pos df _ h2
          · rcases List.mem_singleton.mp hc' with rfl
            exact no_null_of_not_pos df _ h3

/-! Part 2: the reconciliation deployer (src/scripts/deploy_to_databricks.py).

A local dashboard definition is identified by its clean name (the file name
with the .lvdash.json suffix stripped); its JSON body is opaque to the
reconciliation logic, so locals are modelled by their clean names. The
remote responses are modelled by an environment: the result of the one list
request (none meaning the request failed) and the success of each
create/update request. Each function returns the trace of remote calls it
issues and the log lines it prints, in order. -/

/-- A dashboard entry of the remote list response: both the display name and
the id are read with dict.get and may be absent. -/
structure RemoteDashboard where
  display_name : Option String
  dashboard_id : Option String
deriving Repr, DecidableEq

/-- Python truthiness of existing.get("dashboard_id"): an absent key or an
empty string is falsy. -/
def usableId : Option String → Option String
  | some s => if s = "" then none else some s
  | none => none

/-- A remote call issued by deploy_dashboards. The delete constructor exists
only so that its absence from every trace is expressible; the source has no
delete endpoint. -/
inductive DashCall where
  | list
  | update (id : String) (name : String)
  | create (name : String)
  | delete (id : String)
deriving Repr, DecidableEq

/-- A log line printed by deploy_dashboards. requestFailed is the line
safe_request prints (method and url, no artifact name); the others carry the
clean name of the dashboard being processed. -/
inductive DashLog where
  | noDashboards
  | requestFailed (method : String)
  | updated (name : String)
  | updateFailed (name : String)
  | created (name : String)
  | createFailed (name : String)
deriving Repr, DecidableEq

/-- The remote side seen by deploy_dashboards: the outcome of the single
list request (none: the GET failed, so the snapshot defaults to []) and
whether each update/create request succeeds. -/
structure DashEnv where
  listResult : Option (List RemoteDashboard)
  updateOk : String → String → Bool
  createOk : String → Bool

/-- The snapshot search: the first remote entry whose display_name equals
the clean name (next with a generator expression in the source). -/
def findExisting (dashboards : List RemoteDashboard) (name : String) :
    Option RemoteDashboard :=
  dashboards.find? (fun d => d.display_name == some name)

/-- The loop body of deploy_dashboards for one local definition: if a match
with a truthy dashboard_id exists, PATCH that id, otherwise POST a create;
either way print a success or failure line (a failed request also prints
safe_request's own line first). -/
def processDashboard (dashboards : List RemoteDashboard) (env : DashEnv)
    (name : String) : List DashCall × List DashLog :=
  match findExisting dashboards name with
  | some ex =>
    match usableId ex.dashboard_id with
    | some id =>
      ([DashCall.update id name],
       if env.updateOk id name then [DashLog.updated name]
       else [DashLog.requestFailed "patch", DashLog.updateFailed name])
    | none =>
      ([DashCall.create name],
       if env.createOk name then [DashLog.created name]
       else [DashLog.requestFailed "post", DashLog.createFailed name])
  | none =>
    ([DashCall.create name],
     if env.createOk name then [DashLog.created name]
     else [DashLog.requestFailed "post", DashLog.createFailed name])

/-- Sequential processing of the local dashboard definitions against the one
prefetched snapshot. -/
def deployDashList (dashboards : List RemoteDashboard) (env : DashEnv) :
    List String → List DashCall × List DashLog
  | [] => ([], [])
  | n :: ns =>
    ((processDashboard dashboards env n).1 ++ (deployDashList dashboards env ns).1,
     (processDashboard dashboards env n).2 ++ (deployDashList dashboards env ns).2)

/-- deploy_dashboards: if no definition files exist, warn and return; else
issue one list request, default its result to [] on failure, then process
every local definition against that snapshot. -/
def deploy_dashboards (locals : List String) (env : DashEnv) :
    List DashCall × List DashLog :=
  if locals = [] then ([], [DashLog.noDashboards])
  else
    (DashCall.list :: (deployDashList (env.listResult.getD []) env locals).1,
     (match env.listResult with
      | none => [DashLog.requestFailed "get"]
      | some _ => []) ++ (deployDashList (env.listResult.getD []) env locals).2)

/-- A local job definition file: its path and the value of
job_def.get("name"). The rest of the JSON body is opaque to the
reconciliation logic. -/
structure JobFile where
  file : String
  name : Option String
deriving Repr, DecidableEq

/-- A job entry of the remote list response; the source indexes
j["settings"]["name"] and existing_job["job_id"] directly, so both fields
are modelled as present. -/
structure RemoteJob where
  job_id : Nat
  settings_name : String
deriving Repr, DecidableEq

/-- A remote call issued by deploy_jobs; delete exists only so its absence
is expressible. -/
inductive JobCall where
  | list
  | update (id : Nat) (name : String)
  | create (name : String)
  | delete (id : Nat)
deriving Repr, DecidableEq

/-- A log line printed by deploy_jobs. listFailed is the line printed when
the jobs/list request fails; it carries no artifact name. -/
inductive JobLog where
  | noJobsDir
  | processing (file : String)
  | skippedMissingName (file : String)
  | listFailed
  | updating (name : String) (id : Nat)
  | updated (name : String)
  | updateFailed (name : String)
  | creating (name : String)
  | created (name : String)
  | createFailed (name : String)
deriving Repr, DecidableEq

/-- The remote side seen by deploy_jobs: whether the jobs directory exists,
the outcome of each jobs/list request (none: the GET failed; the same
response is returned on every iteration), and whether each update/create
succeeds. -/
structure JobEnv where
  jobsDirExists : Bool
  listResult : Option (List RemoteJob)
  updateOk : String → Bool
  createOk : String → Bool

/-- Python truthiness of job_def.get("name"): an absent key or an empty
string is falsy and makes the definition skipped. -/
def jobNameOf (j : JobFile) : Option String :=
  match j.name with
  | some s => if s = "" then none else some s
  | none => none

/-- The loop body of deploy_jobs for one definition file: print the
processing line; skip with a warning if the name is missing; otherwise GET
the jobs list (once per definition, inside the loop), continue on list
failure, and update the first name match or create a new job. -/
def processJob (env : JobEnv) (j : JobFile) : List JobCall × List JobLog :=
  match jobNameOf j with
  | none => ([], [JobLog.processing j.file, JobLog.skippedMissingName j.file])
  | some name =>
    match env.listResult with
    | none => ([JobCall.list], [JobLog.processing j.file, JobLog.listFailed])
    | some jobsList =>
      match jobsList.find? (fun rj => rj.settings_name == name) with
      | some rj =>
        ([JobCall.list, JobCall.update rj.job_id name],
         [JobLog.processing j.file, JobLog.updating name rj.job_id] ++
           (if env.updateOk name then [JobLog.updated name]
            else [JobLog.updateFailed name]))
      | none =>
        ([JobCall.list, JobCall.create name],
         [JobLog.processing j.file, JobLog.creating name] ++
           (if env.createOk name then [JobLog.created name]
            else [JobLog.createFailed name]))

/-- Sequential processing of the job definition files. -/
def deployJobList (env : JobEnv) : List JobFile → List JobCall × List JobLog
  | [] => ([], [])
  | j :: js =>
    ((processJob env j).1 ++ (deployJobList env js).1,
     (processJob env j).2 ++ (deployJobList env js).2)

/-- deploy_jobs: return immediately if the jobs directory is absent, else
process every definition file in order. -/
def deploy_jobs (env : JobEnv) (files : List JobFile) :
    List JobCall × List JobLog :=
  if env.jobsDirExists then deployJobList env files
  else ([], [JobLog.noJobsDir])

/-- The artifact name carried by a job log line, when it carries one. -/
def jobLogName : JobLog → Option String
  | JobLog.updating n _ => some n
  | JobLog.updated n => some n
  | JobLog.updateFailed n => some n
  | JobLog.creating n => some n
  | JobLog.created n => some n
  | JobLog.createFailed n => some n
  | _ => none

/-- Whether a job log line reports a remote-call failure. -/
def jobLogIsFailure : JobLog → Bool
  | JobLog.listFailed => true
  | JobLog.updateFailed _ => true
  | JobLog.createFailed _ => true
  | _ => false

/-- Whether a job log line is the per-file processing header. -/
def isProcessing : JobLog → Bool
  | JobLog.processing _ => true
  | _ => false

/-- Whether a dashboard log line is a per-definition outcome (success or
failure of the update or create for one definition). -/
def isDashOutcome : DashLog → Bool
  | DashLog.updated _ => true
  | DashLog.updateFailed _ => true
  | DashLog.created _ => true
  | DashLog.createFailed _ => true
  | _ => false

/-- Whether a dashboard call is the list request. -/
def isDashListCall : DashCall → Bool
  | DashCall.list => true
  | _ => false

/-- Whether a job call is the list request. -/
def isJobListCall : JobCall → Bool
  | JobCall.list => true
  | _ => false

/-- Number of list calls in a dashboard call trace. -/
def countDashList (cs : List DashCall) : Nat :=
  (cs.filter isDashListCall).length

/-- Number of list calls in a job call trace. -/
def countJobList (cs : List JobCall) : Nat :=
  (cs.filter isJobListCall).length

/-! Concrete environments used by counterexamples and witnesses. -/

/-- Remote has one dashboard named Sales without a dashboard_id; all
requests succeed. -/
def dashEnvNoId : DashEnv :=
  { listResult := some [{ display_name := some "Sales", dashboard_id := none }]
    updateOk := fun _ _ => true
    createOk := fun _ => true }

/-- The dashboard list request fails; all other requests succeed. -/
def dashEnvListFail : DashEnv :=
  { listResult := none
    updateOk := fun _ _ => true
    createOk := fun _ => true }

/-- The jobs directory exists, the remote jobs list is empty, all requests
succeed. -/
def jobEnvEmpty : JobEnv :=
  { jobsDirExists := true
    listResult := some []
    updateOk := fun _ => true
    createOk := fun _ => true }

/-- The jobs directory exists and the remote has one job named Sales with
id 42; all requests succeed. -/
def jobEnvSales : JobEnv :=
  { jobsDirExists := true
    listResult := some [{ job_id := 42, settings_name := "Sales" }]
    updateOk := fun _ => true
    createOk := fun _ => true }

/-- The jobs directory exists but every jobs/list request fails. -/
def jobEnvListFail : JobEnv :=
  { jobsDirExists := true
    listResult := none
    updateOk := fun _ => true
    createOk := fun _ => true }

/-! Shape and counting lemmas for the deployer. -/

theorem processDashboard_call_shape (dashboards : List RemoteDashboard)
    (env : DashEnv) (name : String) :
    (∃ id, (processDashboard dashboards env name).1 = [DashCall.update id name]) ∨
    (processDashboard dashboards env name).1 = [DashCall.create name] := by
  rcases hf : findExisting dashboards name with _ | ex
  · right; simp [processDashboard, hf]
  · rcases hid : usableId ex.dashboard_id with _ | id
    · right; simp [processDashboard, hf, hid]
    · left; exact ⟨id, by simp [processDashboard, hf, hid]⟩

theorem processDashboard_countList (dashboards : List RemoteDashboard)
    (env : DashEnv) (name : String) :
    countDashList (processDashboard dashboards env name).1 = 0 := by
  rcases processDashboard_call_shape dashboards env name with ⟨id, h⟩ | h <;>
    simp [h, countDashList, isDashListCall]

theorem countDashList_append (a b : List DashCall) :
    countDashList (a ++ b) = countDashList a + countDashList b := by
  simp [countDashList, List.filter_append]

theorem countJobList_append (a b : List JobCall) :
    countJobList (a ++ b) = countJobList a + countJobList b := by
  simp [countJobList, List.filter_append]

theorem deployDashList_countList (dashboards : List RemoteDashboard)
    (env : DashEnv) (ns : List String) :
    countDashList (deployDashList dashboards env ns).1 = 0 := by
  induction ns with
  | nil => rfl
  | cons n ns ih =>
    show countDashList ((processDashboard dashboards env n).1
      ++ (deployDashList dashboards env ns).1) = 0
    rw [countDashList_append, processDashboard_countList, ih]

theorem processJob_countList (env : JobEnv) (j : JobFile) :
    countJobList (processJob env j).1 = if (jobNameOf j).isSome then 1 else 0 := by
  rcases hn : jobNameOf j with _ | name
  · simp [processJob, hn, countJobList]
  · rcases hl : env.listResult with _ | jobsList
    · simp [processJob, hn, hl, countJobList, isJobListCall]
    · rcases hf : jobsList.find? (fun rj => rj.settings_name == name) with _ | rj <;>
        simp [processJob, hn, hl, hf, countJobList, isJobListCall]

theorem deployJobList_countList (env : JobEnv) (files : List JobFile) :
    countJobList (deployJobList env files).1 =
      (files.filter (fun j => (jobNameOf j).isSome)).length := by
  induction files with
  | nil => rfl
  | cons j js ih =>
    show countJobList ((processJob env j).1 ++ (deployJobList env js).1) = _
    rw [countJobList_append, processJob_countList, ih]
    rcases h : jobNameOf j with _ | n <;> simp [List.filter_cons, h, Nat.add_comm]

theorem processJob_call_shape (env : JobEnv) (j : JobFile) :
    (processJob env j).1 = [] ∨
    (processJob env j).1 = [JobCall.list] ∨
    (∃ id n, (processJob env j).1 = [JobCall.list, JobCall.update id n]) ∨
    (∃ n, (processJob env j).1 = [JobCall.list, JobCall.create n]) := by
  rcases hn : jobNameOf j with _ | name
  · left; simp [processJob, hn]
  · rcases hl : env.listResult with _ | jobsList
    · right; left; simp [processJob, hn, hl]
    · rcases hf : jobsList.find? (fun rj => rj.settings_name == name) with _ | rj
      · right; right; right; exact ⟨name, by simp [processJob, hn, hl, hf]⟩
      · right; right; left
        exact ⟨rj.job_id, name, by simp [processJob, hn, hl, hf]⟩

theorem deployDashList_mem_shape (dashboards : List RemoteDashboard)
    (env : DashEnv) (ns : List String) :
    ∀ c ∈ (deployDashList dashboards env ns).1,
      (∃ id n, c = DashCall.update id n) ∨ ∃ n, c = DashCall.create n := by
  induction ns with
  | nil => simp [deployDashList]
  | cons n ns ih =>
    intro c hc
    have hc : c ∈ (processDashboard dashboards env n).1
        ++ (deployDashList dashboards env ns).1 := hc
    rcases List.mem_append.mp hc with hc | hc
    · rcases processDashboard_call_shape dashboards env n with ⟨id, hsh⟩ | hsh
      · rw [hsh] at hc
        rcases List.mem_singleton.mp hc with rfl
        exact Or.inl ⟨id, n, rfl⟩
      · rw [hsh] at hc
        rcases List.mem_singleton.mp hc with rfl
        exact Or.inr ⟨n, rfl⟩
    · exact ih c hc

theorem deployJobList_mem_shape (env : JobEnv) (files : List JobFile) :
    ∀ c ∈ (deployJobList env files).1, c = JobCall.list ∨
      (∃ id n, c = JobCall.update id n) ∨ ∃ n, c = JobCall.create n := by
  induction files with
  | nil => simp [deployJobList]
  | cons j js ih =>
    intro c hc
    have hc : c ∈ (processJob env j).1 ++ (deployJobList env js).1 := hc
    rcases List.mem_append.mp hc with hc | hc
    · rcases processJob_call_shape env j with hsh | hsh | ⟨id, n, hsh⟩ | ⟨n, hsh⟩ <;>
        rw [hsh] at hc
      · exact absurd hc (List.not_mem_nil c)
      · rcases List.mem_singleton.mp hc with rfl
        exact Or.inl rfl
      · rcases List.mem_cons.mp hc with rfl | hc
        · exact Or.inl rfl
        · rcases List.mem_singleton.mp hc with rfl
          exact Or.inr (Or.inl ⟨id, n, rfl⟩)
      · rcases List.mem_cons.mp hc with rfl | hc
        · exact Or.inl rfl
        · rcases List.mem_singleton.mp hc with rfl
          exact Or.inr (Or.inr ⟨n, rfl⟩)
    · exact ih c hc

theorem processJob_processing_count (env : JobEnv) (j : JobFile) :
    ((processJob env j).2.filter isProcessing).length = 1 := by
  rcases hn : jobNameOf j with _ | name
  · simp [processJob, hn, isProcessing]
  · rcases hl : env.listResult with _ | jobsList
    · simp [processJob, hn, hl, isProcessing]
    · rcases hf : jobsList.find? (fun rj => rj.settings_name == name) with _ | rj
      · cases hu : env.createOk name <;>
          simp [processJob, hn, hl, hf, hu, isProcessing]
      · cases hu : env.updateOk name <;>
          simp [processJob, hn, hl, hf, hu, isProcessing]

theorem deployJobList_processing_count (env : JobEnv) (files : List JobFile) :
    ((deployJobList env files).2.filter isProcessing).length = files.length := by
  induction files with
  | nil => rfl
  | cons j js ih =>
    show (((processJob env j).2 ++ (deployJobList env js).2).filter isProcessing).length = _
    rw [List.filter_append, List.length_append, processJob_processing_count, ih,
      List.length_cons, Nat.add_comm]

theorem processJob_logName (env : JobEnv) (j : JobFile) :
    ∀ l ∈ (processJob env j).2, ∀ n, jobLogName l = some n → jobNameOf j = some n := by
  rcases hn : jobNameOf j with _ | name
  · simp [processJob, hn, jobLogName]
  · rcases hl : env.listResult with _ | jobsList
    · simp [processJob, hn, hl, jobLogName]
    · rcases hf : jobsList.find? (fun rj => rj.settings_name == name) with _ | rj
      · cases hu : env.createOk name <;>
          simp [processJob, hn, hl, hf, hu, jobLogName]
      · cases hu : env.updateOk name <;>
          simp [processJob, hn, hl, hf, hu, jobLogName]

theorem deployJobList_logName (env : JobEnv) (files : List JobFile) :
    ∀ l ∈ (deployJobList env files).2, ∀ n, jobLogName l = some n →
      ∃ jf ∈ files, jobNameOf jf = some n := by
  induction files with
  | nil => simp [deployJobList]
  | cons j js ih =>
    intro l hl n hn
    have hl : l ∈ (processJob env j).2 ++ (deployJobList env js).2 := hl
    rcases List.mem_append.mp hl with hl | hl
    · exact ⟨j, List.mem_cons_self j js, processJob_logName env j l hl n hn⟩
    · rcases ih l hl n hn with ⟨jf, hjf, hname⟩
      exact ⟨jf, List.mem_cons_of_mem j hjf, hname⟩

theorem processDashboard_outcome_count (dashboards : List RemoteDashboard)
    (env : DashEnv) (name : String) :
    ((processDashboard dashboards env name).2.filter isDashOutcome).length = 1 := by
  rcases hf : findExisting dashboards name with _ | ex
  · cases hu : env.createOk name <;>
      simp [processDashboard, hf, hu, isDashOutcome]
  · rcases hid : usableId ex.dashboard_id with _ | id
    · cases hu : env.createOk name <;>
        simp [processDashboard, hf, hid, hu, isDashOutcome]
    · cases hu : env.updateOk id name <;>
        simp [processDashboard, hf, hid, hu, isDashOutcome]

theorem deployDashList_outcome_count (dashboards : List RemoteDashboard)
    (env : DashEnv) (ns : List String) :
    ((deployDashList dashboards env ns).2.filter isDashOutcome).length = ns.length := by
  induction ns with
  | nil => rfl
  | cons n ns ih =>
    show (((processDashboard dashboards env n).2
      ++ (deployDashList dashboards env ns).2).filter isDashOutcome).length = _
    rw [List.filter_append, List.length_append, processDashboard_outcome_count, ih,
      List.length_cons, Nat.add_comm]

theorem deployDashList_empty_snapshot (env : DashEnv) (ns : List String) :
    (deployDashList [] env ns).1 = ns.map DashCall.create := by
  induction ns with
  | nil => rfl
  | cons n ns ih =>
    show (processDashboard [] env n).1 ++ (deployDashList [] env ns).1 = _
    rw [ih]
    simp [processDashboard, findExisting]

/-! Claim theorems. -/

/-- C1 counterexample: with one local definition named Sales and a remote
snapshot entry named Sales that lacks a dashboard_id, the reconciler issues
a create call, contradicting the claim that it issues neither create nor
update for that definition. -/
theorem C1_counterexample :
    (deploy_dashboards ["Sales"] dashEnvNoId).1
      = [DashCall.list, DashCall.create "Sales"] := rfl

/-- C1 amended: a remote match that lacks a usable dashboard_id is not
skipped with a warning; the reconciler falls through to the create path,
issuing exactly one create call and no update call for that definition and
printing a create outcome line. -/
theorem C1_no_id_falls_through_to_create (dashboards : List RemoteDashboard)
    (env : DashEnv) (name : String) (ex : RemoteDashboard)
    (hfind : findExisting dashboards name = some ex)
    (hid : usableId ex.dashboard_id = none) :
    (processDashboard dashboards env name).1 = [DashCall.create name] ∧
    (processDashboard dashboards env name).2 =
      (if env.createOk name then [DashLog.created name]
       else [DashLog.requestFailed "post", DashLog.createFailed name]) := by
  constructor <;> simp [processDashboard, hfind, hid]

/-- Witness for the amended C1 at a concrete snapshot and environment. -/
theorem C1_no_id_falls_through_to_create_witness :
    (processDashboard [{ display_name := some "Sales", dashboard_id := none }]
        dashEnvNoId "Sales").1 = [DashCall.create "Sales"] ∧
    (processDashboard [{ display_name := some "Sales", dashboard_id := none }]
        dashEnvNoId "Sales").2 =
      (if dashEnvNoId.createOk "Sales" then [DashLog.created "Sales"]
       else [DashLog.requestFailed "post", DashLog.createFailed "Sales"]) :=
  C1_no_id_falls_through_to_create _ dashEnvNoId "Sales"
    { display_name := some "Sales", dashboard_id := none } rfl rfl

/-- C2 counterexample: over two local job definitions, deploy_jobs issues
the jobs/list request twice, once per definition inside the loop, not once
per run as claimed. -/
theorem C2_counterexample :
    countJobList (deploy_jobs jobEnvEmpty
      [{ file := "a.json", name := some "A" },
       { file := "b.json", name := some "B" }]).1 = 2 := rfl

/-- C2 amended: deploy_dashboards issues exactly one list call per run
(when any definition file exists), before processing any definition; but
deploy_jobs issues one list call per local definition that carries a name,
so N named job definitions cost N list calls, not one. -/
theorem C2_list_call_counts (locals : List String) (denv : DashEnv)
    (jenv : JobEnv) (files : List JobFile)
    (hl : locals ≠ []) (hj : jenv.jobsDirExists = true) :
    countDashList (deploy_dashboards locals denv).1 = 1 ∧
    countJobList (deploy_jobs jenv files).1 =
      (files.filter (fun j => (jobNameOf j).isSome)).length := by
  constructor
  · have : (deploy_dashboards locals denv).1
        = DashCall.list :: (deployDashList (denv.listResult.getD []) denv locals).1 := by
      simp [deploy_dashboards, if_neg hl]
    rw [this]
    show countDashList ([DashCall.list]
      ++ (deployDashList (denv.listResult.getD []) denv locals).1) = 1
    rw [countDashList_append, deployDashList_countList]
    rfl
  · have : (deploy_jobs jenv files).1 = (deployJobList jenv files).1 := by
      simp [deploy_jobs, hj]
    rw [this, deployJobList_countList]

/-- Witness for the amended C2: one dashboard definition costs one list
call; two named job definitions cost two list calls. -/
theorem C2_list_call_counts_witness :
    countDashList (deploy_dashboards ["Sales"] dashEnvNoId).1 = 1 ∧
    countJobList (deploy_jobs jobEnvEmpty
      [{ file := "a.json", name := some "A" },
       { file := "b.json", name := some "B" }]).1 =
      (List.filter (fun j => (jobNameOf j).isSome)
        [{ file := "a.json", name := some "A" },
         { file := "b.json", name := some "B" }]).length :=
  C2_list_call_counts ["Sales"] dashEnvNoId jobEnvEmpty
    [{ file := "a.json", name := some "A" },
     { file := "b.json", name := some "B" }]
    (by simp) rfl

/-- C3: per local definition the reconciler dispatches by exact name
equality against the prefetched snapshot: a match carrying an identifier
yields exactly one update call addressed to that identifier and no create
call; no match yields exactly one create call and no update call — for
dashboards, and for jobs (whose trace also holds the per-definition list
call). -/
theorem C3_name_dispatch (dashboards : List RemoteDashboard) (denv : DashEnv)
    (name : String) (jenv : JobEnv) (jobsList : List RemoteJob) (j : JobFile)
    (jn : String) (hjl : jenv.listResult = some jobsList)
    (hjn : jobNameOf j = some jn) :
    (∀ ex id, findExisting dashboards name = some ex →
        usableId ex.dashboard_id = some id →
        (processDashboard dashboards denv name).1 = [DashCall.update id name]) ∧
    (findExisting dashboards name = none →
        (processDashboard dashboards denv name).1 = [DashCall.create name]) ∧
    (∀ rj, jobsList.find? (fun r => r.settings_name == jn) = some rj →
        (processJob jenv j).1 = [JobCall.list, JobCall.update rj.job_id jn]) ∧
    (jobsList.find? (fun r => r.settings_name == jn) = none →
        (processJob jenv j).1 = [JobCall.list, JobCall.create jn]) := by
  refine ⟨?_, ?_, ?_, ?_⟩
  · intro ex id hf hid; simp [processDashboard, hf, hid]
  · intro hf; simp [processDashboard, hf]
  · intro rj hf; simp [processJob, hjn, hjl, hf]
  · intro hf; simp [processJob, hjn, hjl, hf]

/-- Witness for C3 on the spec's example: remote dashboard Sales with id
42 is updated, an empty snapshot leads to a create, and likewise for a
remote job Sales with id 42 and for an empty remote jobs list. -/
theorem C3_name_dispatch_witness :
    (processDashboard [{ display_name := some "Sales", dashboard_id := some "42" }]
        dashEnvNoId "Sales").1 = [DashCall.update "42" "Sales"] ∧
    (processDashboard [] dashEnvNoId "Sales").1 = [DashCall.create "Sales"] ∧
    (processJob jobEnvSales { file := "sales.json", name := some "Sales" }).1
        = [JobCall.list, JobCall.update 42 "Sales"] ∧
    (processJob jobEnvEmpty { file := "sales.json", name := some "Sales" }).1
        = [JobCall.list, JobCall.create "Sales"] :=
  ⟨(C3_name_dispatch [{ display_name := some "Sales", dashboard_id := some "42" }]
      dashEnvNoId "Sales" jobEnvSales [{ job_id := 42, settings_name := "Sales" }]
      { file := "sales.json", name := some "Sales" } "Sales" rfl rfl).1
      { display_name := some "Sales", dashboard_id := some "42" } "42" rfl rfl,
   (C3_name_dispatch [] dashEnvNoId "Sales" jobEnvSales
      [{ job_id := 42, settings_name := "Sales" }]
      { file := "sales.json", name := some "Sales" } "Sales" rfl rfl).2.1 rfl,
   (C3_name_dispatch [] dashEnvNoId "Sales" jobEnvSales
      [{ job_id := 42, settings_name := "Sales" }]
      { file := "sales.json", name := some "Sales" } "Sales" rfl rfl).2.2.1
      { job_id := 42, settings_name := "Sales" } rfl,
   (C3_name_dispatch [] dashEnvNoId "Sales" jobEnvEmpty []
      { file := "sales.json", name := some "Sales" } "Sales" rfl rfl).2.2.2 rfl⟩

/-- C6: for a record whose Dato and Klokkeslett columns hold strings, the
normalizer returns a record shape carrying a single timestamp column (the
TsRecord type has no Dato or Klokkeslett field) computed by parsing the
combined string under dd.MM.yyyy HH:mm; a combined string that does not
parse yields a null timestamp, never an error. -/
theorem C6_konverter_shape (r : Record) (d t : String)
    (hd : r.Dato = some d) (ht : r.Klokkeslett = some t) :
    konverter_timestamp r =
      { Sted := r.Sted
        Antall_ledige_plasser := r.Antall_ledige_plasser
        timestamp := parseTimestamp (d ++ " " ++ t) } ∧
    (parseTimestamp (d ++ " " ++ t) = none →
      (konverter_timestamp r).timestamp = none) := by
  have hc : concat_ws " " [r.Dato, r.Klokkeslett] = d ++ " " ++ t := by
    rw [hd, ht]; rfl
  refine ⟨by simp [konverter_timestamp, hc], ?_⟩
  intro hn
  simp [konverter_timestamp, hc, hn]

/-- Witness for C6 on the spec's example record, whose combined string
01.01.2024 10:00 parses successfully. -/
theorem C6_konverter_shape_witness :
    (konverter_timestamp
        { Sted := some "A", Dato := some "01.01.2024",
          Klokkeslett := some "10:00", Antall_ledige_plasser := some 5 } =
      { Sted := some "A"
        Antall_ledige_plasser := some 5
        timestamp := parseTimestamp ("01.01.2024" ++ " " ++ "10:00") } ∧
    (parseTimestamp ("01.01.2024" ++ " " ++ "10:00") = none →
      (konverter_timestamp
        { Sted := some "A", Dato := some "01.01.2024",
          Klokkeslett := some "10:00", Antall_ledige_plasser := some 5 }).timestamp
        = none)) ∧
    parseTimestamp ("01.01.2024" ++ " " ++ "10:00")
      = some { day := 1, month := 1, year := 2024, hour := 10, minute := 0 } :=
  ⟨C6_konverter_shape _ "01.01.2024" "10:00" rfl rfl, by decide⟩

/-- C7 counterexample: while processing the job definition named Sales the
jobs/list request fails; the run logs the failure with a line carrying no
artifact name, contradicting the claim that every remote-call failure is
logged with the artifact name. -/
theorem C7_counterexample :
    (deploy_jobs jobEnvListFail [{ file := "sales.json", name := some "Sales" }]).2
      = [JobLog.processing "sales.json", JobLog.listFailed] ∧
    (∀ l ∈ (deploy_jobs jobEnvListFail
        [{ file := "sales.json", name := some "Sales" }]).2,
      jobLogIsFailure l = true → jobLogName l = none) := by
  refine ⟨rfl, ?_⟩
  intro l hl
  have : l = JobLog.processing "sales.json" ∨ l = JobLog.listFailed := by
    rcases List.mem_cons.mp hl with h | h
    · exact Or.inl h
    · exact Or.inr (List.mem_singleton.mp h)
  rcases this with rfl | rfl <;> intro h <;> rfl

/-- C7 amended: every remote-call failure is caught at the per-artifact
boundary and the run continues to completion (every job file produces its
processing line; every dashboard definition produces exactly one outcome
line); update and create failures are logged with the artifact name (every
name-carrying job log names some named local definition), but a jobs list
failure is logged without the artifact name. -/
theorem C7_failures_contained (jenv : JobEnv) (files : List JobFile)
    (denv : DashEnv) (locals : List String) (hj : jenv.jobsDirExists = true) :
    ((deploy_jobs jenv files).2.filter isProcessing).length = files.length ∧
    (∀ l ∈ (deploy_jobs jenv files).2, ∀ n, jobLogName l = some n →
        ∃ jf ∈ files, jobNameOf jf = some n) ∧
    ((deploy_dashboards locals denv).2.filter isDashOutcome).length = locals.length := by
  have hjobs : (deploy_jobs jenv files) = deployJobList jenv files := by
    simp [deploy_jobs, hj]
  refine ⟨?_, ?_, ?_⟩
  · rw [hjobs, deployJobList_processing_count]
  · rw [hjobs]; exact deployJobList_logName jenv files
  · by_cases hl : locals = []
    · subst hl; rfl
    · have : (deploy_dashboards locals denv).2
          = (match denv.listResult with
             | none => [DashLog.requestFailed "get"]
             | some _ => [])
            ++ (deployDashList (denv.listResult.getD []) denv locals).2 := by
        simp [deploy_dashboards, if_neg hl]
      rw [this, List.filter_append, List.length_append, deployDashList_outcome_count]
      rcases denv.listResult with _ | ds <;> simp [isDashOutcome]

/-- Witness for the amended C7 at a failing jobs list and one dashboard. -/
theorem C7_failures_contained_witness :
    ((deploy_jobs jobEnvListFail
        [{ file := "sales.json", name := some "Sales" }]).2.filter isProcessing).length
      = 1 ∧
    (∀ l ∈ (deploy_jobs jobEnvListFail
        [{ file := "sales.json", name := some "Sales" }]).2, ∀ n,
      jobLogName l = some n →
        ∃ jf ∈ ([{ file := "sales.json", name := some "Sales" }] : List JobFile),
          jobNameOf jf = some n) ∧
    ((deploy_dashboards ["Sales"] dashEnvListFail).2.filter isDashOutcome).length = 1 :=
  C7_failures_contained jobEnvListFail
    [{ file := "sales.json", name := some "Sales" }] dashEnvListFail ["Sales"] rfl

/-- C8: a job definition file whose parsed content lacks a name is skipped
with a warning: no remote call at all is issued for it, and the calls of
the rest of the run are exactly those of the remaining definitions. -/
theorem C8_missing_name_skipped (env : JobEnv) (j : JobFile)
    (h : jobNameOf j = none) (js : List JobFile) :
    (processJob env j).1 = [] ∧
    (processJob env j).2
      = [JobLog.processing j.file, JobLog.skippedMissingName j.file] ∧
    (deployJobList env (j :: js)).1 = (deployJobList env js).1 := by
  refine ⟨by simp [processJob, h], by simp [processJob, h], ?_⟩
  show (processJob env j).1 ++ (deployJobList env js).1 = _
  simp [processJob, h]

/-- Witness for C8 on a definition file with no name field. -/
theorem C8_missing_name_skipped_witness :
    (processJob jobEnvEmpty { file := "noname.json", name := none }).1 = [] ∧
    (processJob jobEnvEmpty { file := "noname.json", name := none }).2
      = [JobLog.processing "noname.json", JobLog.skippedMissingName "noname.json"] ∧
    (deployJobList jobEnvEmpty
        [{ file := "noname.json", name := none },
         { file := "a.json", name := some "A" }]).1
      = (deployJobList jobEnvEmpty [{ file := "a.json", name := some "A" }]).1 :=
  C8_missing_name_skipped jobEnvEmpty { file := "noname.json", name := none } rfl
    [{ file := "a.json", name := some "A" }]

/-- C9: the deployer never issues a delete call: every remote call in any
run over any environment is a list, update or create call, for dashboards
and for jobs alike, so remote artifacts matching no local definition are
never deleted. -/
theorem C9_no_deletes (locals : List String) (denv : DashEnv)
    (jenv : JobEnv) (files : List JobFile) :
    (∀ c ∈ (deploy_dashboards locals denv).1, c = DashCall.list ∨
        (∃ id n, c = DashCall.update id n) ∨ ∃ n, c = DashCall.create n) ∧
    (∀ id, DashCall.delete id ∉ (deploy_dashboards locals denv).1) ∧
    (∀ c ∈ (deploy_jobs jenv files).1, c = JobCall.list ∨
        (∃ id n, c = JobCall.update id n) ∨ ∃ n, c = JobCall.create n) ∧
    (∀ id, JobCall.delete id ∉ (deploy_jobs jenv files).1) := by
  have hdash : ∀ c ∈ (deploy_dashboards locals denv).1, c = DashCall.list ∨
      (∃ id n, c = DashCall.update id n) ∨ ∃ n, c = DashCall.create n := by
    intro c hc
    by_cases hl : locals = []
    · subst hl
      simp [deploy_dashboards] at hc
    · have hc : c ∈ DashCall.list
          :: (deployDashList (denv.listResult.getD []) denv locals).1 := by
        simpa [deploy_dashboards, if_neg hl] using hc
      rcases List.mem_cons.mp hc with rfl | hc
      · exact Or.inl rfl
      · exact Or.inr (deployDashList_mem_shape _ denv locals c hc)
  have hjobs : ∀ c ∈ (deploy_jobs jenv files).1, c = JobCall.list ∨
      (∃ id n, c = JobCall.update id n) ∨ ∃ n, c = JobCall.create n := by
    intro c hc
    by_cases hd : jenv.jobsDirExists
    · have hc : c ∈ (deployJobList jenv files).1 := by
        simpa [deploy_jobs, hd] using hc
      exact deployJobList_mem_shape jenv files c hc
    · simp [deploy_jobs, hd] at hc
  refine ⟨hdash, ?_, hjobs, ?_⟩
  · intro id hmem
    rcases hdash _ hmem with h | ⟨i, n, h⟩ | ⟨n, h⟩ <;> exact DashCall.noConfusion h
  · intro id hmem
    rcases hjobs _ hmem with h | ⟨i, n, h⟩ | ⟨n, h⟩ <;> exact JobCall.noConfusion h

/-- C10: when the one dashboard list request fails, the run does not abort:
the snapshot defaults to the empty list, so every local definition takes
the create path — one create call each and no update call, whatever the
remote actually holds. -/
theorem C10_list_failure_all_create (locals : List String) (env : DashEnv)
    (hne : locals ≠ []) (hfail : env.listResult = none) :
    (deploy_dashboards locals env).1
      = DashCall.list :: locals.map DashCall.create ∧
    (∀ id n, DashCall.update id n ∉ (deploy_dashboards locals env).1) := by
  have h1 : (deploy_dashboards locals env).1
      = DashCall.list :: (deployDashList [] env locals).1 := by
    simp [deploy_dashboards, if_neg hne, hfail]
  constructor
  · rw [h1, deployDashList_empty_snapshot]
  · intro id n hmem
    rw [h1, deployDashList_empty_snapshot] at hmem
    rcases List.mem_cons.mp hmem with h | h
    · exact DashCall.noConfusion h
    · rcases List.mem_map.mp h with ⟨m, _, hmm⟩
      exact DashCall.noConfusion hmm

/-- Witness for C10: with a failed list request and two local definitions,
the trace is the failed list attempt followed by two creates. -/
theorem C10_list_failure_all_create_witness :
    (deploy_dashboards ["A", "B"] dashEnvListFail).1
      = DashCall.list :: List.map DashCall.create ["A", "B"] ∧
    (∀ id n, DashCall.update id n ∉ (deploy_dashboards ["A", "B"] dashEnvListFail).1) :=
  C10_list_failure_all_create ["A", "B"] dashEnvListFail (by simp) rfl

end StavangerParkering
